import Mathlib

/-!
Shallow embedding of the xundo undo/redo engine (`source/xundo_system.h`).

The engine records a linear history of executed commands, persists each
command's pre-state to disk through a job queue, and lets callers walk
backward (undo) and forward (redo).  The embedding models the owner-thread
semantics: the job queue is an explicit FIFO list and jobs are executed by
an explicit step function (`runJob`), mirroring the C++ worker loop popping
one job at a time.  Machine integers are modelled as `Nat`/`Int`; byte
buffers as `List Nat`.
-/

namespace xundo

/-! ## Byte-level serialization (the PersistStore on-disk format)

`job::save_to_disk::Save` writes, little-endian and unpadded:
`u32 payload_len, payload bytes, i32 user_id, u64 timestamp,
u32 command_str_len, command bytes`.  `job::warmup_cache::Load` reads the
same layout, with two independent flags selecting the payload portion and
the key-data portion. -/

/-- Little-endian encoding of `n` into exactly `k` bytes (low byte first),
as `fwrite` of a `k`-byte unsigned integer does on a little-endian machine. -/
def toBytesLE : Nat → Nat → List Nat
  | 0, _ => []
  | k + 1, n => n % 256 :: toBytesLE k (n / 256)

/-- Little-endian decoding of a byte list back into a natural number. -/
def fromBytesLE : List Nat → Nat
  | [] => 0
  | b :: bs => b + 256 * fromBytesLE bs

/-- Two's-complement image of a C `int` in `[0, 2^32)`, as the bytes written
by `fwrite(&Entry.m_UserID, sizeof(int), 1, File)` represent it. -/
def intToU32 (i : Int) : Nat := (i % (2 : Int) ^ 32).toNat

/-- Reading a 32-bit pattern back as a signed C `int`. -/
def u32ToInt (n : Nat) : Int := if n < 2 ^ 31 then (n : Int) else (n : Int) - 2 ^ 32

/-- The value object stored in one `UndoStep-<timestamp>` file, at the byte
level: the command string appears as its raw bytes. -/
structure entry_record where
  payload : List Nat
  userId : Int
  timeStamp : Nat
  command : List Nat
deriving Repr, DecidableEq

/-- The byte stream produced by `job::save_to_disk::Save` for one entry. -/
def save_bytes (e : entry_record) : List Nat :=
  toBytesLE 4 e.payload.length ++ (e.payload
    ++ (toBytesLE 4 (intToU32 e.userId) ++ (toBytesLE 8 e.timeStamp
    ++ (toBytesLE 4 e.command.length ++ e.command))))

/-- Consume `k` bytes from the front of a stream as one little-endian number
(`fread` of a `k`-byte integer); `none` when the stream is too short. -/
def readNum (k : Nat) (bs : List Nat) : Option (Nat × List Nat) :=
  if k ≤ bs.length then some (fromBytesLE (bs.take k), bs.drop k) else none

/-- `job::warmup_cache::Load`: parse a file image, updating `e` according to
the two flags (`bLoadKeyData` selects user id, timestamp and command string;
`bLoadCacheData` selects the payload, which is otherwise skipped with
`fseek`).  `none` models a short read, which the C++ logs and swallows
leaving the entry in a partially read state no caller relies on. -/
def load_bytes (bLoadKeyData bLoadCacheData : Bool) (bs : List Nat)
    (e : entry_record) : Option entry_record :=
  match readNum 4 bs with
  | none => none
  | some (dataLen, bs1) =>
    if dataLen ≤ bs1.length then
      let e1 := if bLoadCacheData then { e with payload := bs1.take dataLen } else e
      let bs2 := bs1.drop dataLen
      if bLoadKeyData then
        match readNum 4 bs2 with
        | none => none
        | some (uid, bs3) =>
          match readNum 8 bs3 with
          | none => none
          | some (ts, bs4) =>
            match readNum 4 bs4 with
            | none => none
            | some (strLen, bs5) =>
              if strLen ≤ bs5.length then
                some { e1 with userId := u32ToInt uid, timeStamp := ts,
                               command := bs5.take strLen }
              else none
      else some e1
    else none

/-! ## Data model -/

/-- `struct history_entry`: one recorded command.  The C++ per-entry mutex
only serializes owner and worker access and carries no data. -/
structure history_entry where
  m_UserID : Int
  m_TimeStamp : Nat
  m_CommandString : String
  m_CacheUndoData : List Nat
  m_bHasBeenSaved : Bool
deriving Repr, DecidableEq

instance : Inhabited history_entry :=
  ⟨{ m_UserID := 0, m_TimeStamp := 0, m_CommandString := "",
     m_CacheUndoData := [], m_bHasBeenSaved := false }⟩

/-- `struct command_base`: a user-defined command over the caller-owned data
of type `D` (the `m_pDataBase` pointee).  The C++ `Parse` stores the parsed
arguments in the command's parser and `Redo` reads them back; the embedding
folds that parser state into the command string passed to each function.
`Undo` consumes the payload previously produced by `BackupCurrenState`
through a fresh `undo_file` cursor. -/
structure command_base (D : Type) where
  Parse : String → String
  hasHelpOption : String → Bool
  Redo : String → D → String × D
  Undo : List Nat → D → D
  BackupCurrenState : D → List Nat

/-- `getCommandName`: the substring of a command string before the first
space (the whole string when there is none). -/
def getCommandName (s : String) : String :=
  String.mk (s.data.takeWhile (fun c => c ≠ ' '))

/-- The four `job` kinds carried by the IO queue.  Entry-referencing jobs
hold the id of their target entry in the shared store (the C++
`std::shared_ptr<history_entry>`); `delete_entries` carries the timestamps
collected at schedule time. -/
inductive job where
  | save_to_disk (eid : Nat)
  | delete_entries (timeStamps : List Nat)
  | warmup_cache (eid : Nat)
  | load_entries (eid : Nat)
deriving Repr, DecidableEq

/-- `class system`: the engine state driven by the owner thread.  Shared
`history_entry` objects live in the heap `m_Store` (ids below `m_StoreLen`
are allocated); `m_History` and `m_LRU` hold ids into it, modelling the
aliasing of `std::shared_ptr`s between the timeline, the LRU window and
in-flight jobs.  `m_Disk` maps a timestamp to the bytes of its
`UndoStep-<timestamp>` file.  `m_WallMillis` records the wall-clock
milliseconds observed at the most recent `Execute` (the C++ reads
`std::chrono::system_clock` there); `m_Data` is the caller database the
registered commands point at. -/
structure system (D : Type) where
  m_UndoIndex : Nat
  m_History : List Nat
  m_LRU : List Nat
  m_Commands : List (String × command_base D)
  m_UndoPath : String
  m_DefaultUser : Int
  m_MaxCachedSteps : Nat
  m_LookAheadSteps : Nat
  m_IOQueue : List job
  m_CommandCounter : Nat
  m_StoreLen : Nat
  m_Store : Nat → history_entry
  m_Disk : Nat → Option (List Nat)
  m_WallMillis : Nat
  m_Data : D

variable {D : Type}

/-- Point update of the entry heap. -/
def setStore (σ : Nat → history_entry) (i : Nat) (e : history_entry) :
    Nat → history_entry :=
  fun j => if j = i then e else σ j

/-- The bytes of a history entry as characters (the C++ `std::string` is a
byte string; command strings are ASCII identifiers plus arguments). -/
def strBytes (s : String) : List Nat := s.data.map Char.toNat

/-- Bytes back to a string. -/
def bytesStr (l : List Nat) : String := String.mk (l.map Char.ofNat)

/-- The byte-level view of an in-memory entry. -/
def recordOfEntry (e : history_entry) : entry_record :=
  { payload := e.m_CacheUndoData, userId := e.m_UserID,
    timeStamp := e.m_TimeStamp, command := strBytes e.m_CommandString }

/-- The file image `Save` produces for an entry. -/
def entryBytes (e : history_entry) : List Nat := save_bytes (recordOfEntry e)

/-- `Save` reports success only when every `fwrite` returned 1; `fwrite`
with element size 0 returns 0, so an empty payload or an empty command
string makes `Save` report failure even though the file content is written
in full.  `save_to_disk::Execute` then leaves `m_bHasBeenSaved` false. -/
def saveOk (e : history_entry) : Bool :=
  !e.m_CacheUndoData.isEmpty && !e.m_CommandString.isEmpty

/-- `m_Commands.find` (dispatch `Execute`) / registry lookup. -/
def lookupCmd (cmds : List (String × command_base D)) (name : String) :
    Option (command_base D) :=
  (cmds.find? (fun p => p.1 == name)).map (fun p => p.2)

/-- Execution of one popped job by a worker (`job::*::Execute`).  The
per-entry lock acquisitions serialize with the owner thread and are not
otherwise visible in the state. -/
def runJob (s : system D) (j : job) : system D :=
  match j with
  | .save_to_disk eid =>
    let e := s.m_Store eid
    if e.m_bHasBeenSaved then s
    else
      let s1 := { s with
        m_Disk := fun t => if t = e.m_TimeStamp then some (entryBytes e) else s.m_Disk t }
      if saveOk e then
        { s1 with m_Store := setStore s1.m_Store eid { e with m_bHasBeenSaved := true } }
      else s1
  | .delete_entries ts =>
    { s with m_Disk := fun t => if ts.contains t then none else s.m_Disk t }
  | .warmup_cache eid =>
    let e := s.m_Store eid
    if e.m_CacheUndoData = [] then
      match s.m_Disk e.m_TimeStamp with
      | some bytes =>
        match load_bytes false true bytes (recordOfEntry e) with
        | some r =>
          { s with m_Store := setStore s.m_Store eid { e with m_CacheUndoData := r.payload } }
        | none => s
      | none => s
    else s
  | .load_entries eid =>
    let e := s.m_Store eid
    match s.m_Disk e.m_TimeStamp with
    | some bytes =>
      match load_bytes true false bytes (recordOfEntry e) with
      | some r =>
        let e1 : history_entry :=
          { e with m_UserID := r.userId, m_TimeStamp := r.timeStamp,
                   m_CommandString := bytesStr r.command }
        { s with m_Store := setStore s.m_Store eid e1 }
      | none => s
    | none => s

/-- Sequential draining of a job list (the workers pop in FIFO order). -/
def runJobs : system D → List job → system D
  | s, [] => s
  | s, j :: js => runJobs (runJob s j) js

/-- Drain the engine's queue to completion. -/
def drainQueue (s : system D) : system D :=
  runJobs { s with m_IOQueue := [] } s.m_IOQueue

/-- The timestamps of the redo-available tail `[undo_index, len)` that
`PruneHistory` collects. -/
def droppedStamps (s : system D) : List Nat :=
  (s.m_History.drop s.m_UndoIndex).map (fun eid => (s.m_Store eid).m_TimeStamp)

/-- `system::PruneHistory`: when the cursor is strictly inside the history,
truncate the timeline to `[0, undo_index)` and, in persistent mode, schedule
a `delete_entries` job for the timestamps of the removed tail.  The
in-memory branch of the C++ attempts `std::filesystem::remove` under the
empty path, which names no file the engine ever writes — a dead branch (the
spec flags it); the disk map is unchanged there. -/
def PruneHistory (s : system D) : system D :=
  if s.m_History.length ≤ s.m_UndoIndex then s
  else if s.m_UndoPath = "" then
    { s with m_History := s.m_History.take s.m_UndoIndex }
  else
    { s with m_History := s.m_History.take s.m_UndoIndex,
             m_IOQueue := s.m_IOQueue ++ [job.delete_entries (droppedStamps s)] }

/-- Clearing the payload of the evicted front entry, guarded by
`m_bHasBeenSaved` (`UpdateLRU` eviction loop body). -/
def clearIfSaved (σ : Nat → history_entry) (eid : Nat) : Nat → history_entry :=
  let e := σ eid
  if e.m_bHasBeenSaved then setStore σ eid { e with m_CacheUndoData := [] } else σ

/-- The `while (m_LRU.size() > SizeEstimation)` eviction loop: pop from the
front, clearing the popped entry's payload only when it has been saved. -/
def evictLoop (target : Nat) :
    List Nat → (Nat → history_entry) → List Nat × (Nat → history_entry)
  | [], σ => ([], σ)
  | eid :: rest, σ =>
    if rest.length + 1 ≤ target then (eid :: rest, σ)
    else evictLoop target rest (clearIfSaved σ eid)

/-- One iteration body of the look-ahead `for` loop of `UpdateLRU`: warm the
entry at `m_UndoIndex - i` (when `m_UndoIndex >= i` and its payload is
empty) and the entry at `m_UndoIndex + i` (when in range and empty),
pushing each onto the window. -/
def lookAheadStep (s : system D) (i : Nat) : system D :=
  let backId := s.m_History.getD (s.m_UndoIndex - i) 0
  let fwdId := s.m_History.getD (s.m_UndoIndex + i) 0
  let s1 :=
    if i ≤ s.m_UndoIndex ∧ (s.m_Store backId).m_CacheUndoData = [] then
      { s with m_IOQueue := s.m_IOQueue ++ [job.warmup_cache backId],
               m_LRU := s.m_LRU ++ [backId] }
    else s
  if s.m_UndoIndex + i < s.m_History.length ∧ (s.m_Store fwdId).m_CacheUndoData = [] then
    { s1 with m_IOQueue := s1.m_IOQueue ++ [job.warmup_cache fwdId],
              m_LRU := s1.m_LRU ++ [fwdId] }
  else s1

/-- The look-ahead `for (int i = 1; i <= m_LookAheadSteps && m_LRU.size() <
m_MaxCachedSteps; ++i)` loop, with `fuel` iterations remaining. -/
def lookAheadLoop : system D → Nat → Nat → system D
  | s, _, 0 => s
  | s, i, fuel + 1 =>
    if s.m_LRU.length < s.m_MaxCachedSteps then
      lookAheadLoop (lookAheadStep s i) (i + 1) fuel
    else s

/-- `system::UpdateLRU`: no-op on empty history; otherwise evict the window
down to `m_MaxCachedSteps - m_LookAheadSteps*2 - 1` and then warm the
look-ahead radius around the cursor. -/
def UpdateLRU (s : system D) : system D :=
  if s.m_History = [] then s
  else
    let SizeEstimation := s.m_MaxCachedSteps - (s.m_LookAheadSteps * 2 + 1)
    let p := evictLoop SizeEstimation s.m_LRU s.m_Store
    lookAheadLoop { s with m_LRU := p.1, m_Store := p.2 } 1 s.m_LookAheadSteps

/-- Typed `system::Execute(Cmd, cmd_str, UserID)`.  `wallMillis` is the
wall-clock millisecond reading the C++ takes from `system_clock::now()`
inside the call. -/
def ExecuteTyped (s : system D) (Cmd : command_base D) (cmd_str : String)
    (UserID : Int) (wallMillis : Nat) : String × system D :=
  let perr := Cmd.Parse cmd_str
  if perr ≠ "" then (perr, s)
  else if Cmd.hasHelpOption cmd_str then ("", s)
  else
    let uid : Int := if UserID = -1 then s.m_DefaultUser else UserID
    let ts := wallMillis * 1000 + s.m_CommandCounter
    let payload := Cmd.BackupCurrenState s.m_Data
    let rd := Cmd.Redo cmd_str s.m_Data
    let s1 := { s with m_CommandCounter := s.m_CommandCounter + 1,
                       m_WallMillis := wallMillis, m_Data := rd.2 }
    if rd.1 ≠ "" then (rd.1, s1)
    else
      let s2 := PruneHistory s1
      let eid := s2.m_StoreLen
      let entry : history_entry :=
        { m_UserID := uid, m_TimeStamp := ts, m_CommandString := cmd_str,
          m_CacheUndoData := payload, m_bHasBeenSaved := false }
      let s3 := { s2 with m_Store := setStore s2.m_Store eid entry,
                          m_StoreLen := eid + 1,
                          m_History := s2.m_History ++ [eid],
                          m_UndoIndex := s2.m_UndoIndex + 1 }
      if s3.m_UndoPath ≠ "" then
        ("", UpdateLRU { s3 with m_IOQueue := s3.m_IOQueue ++ [job.save_to_disk eid],
                                 m_LRU := s3.m_LRU ++ [eid] })
      else ("", s3)

/-- Dispatch `system::Execute(cmd_str, UserID)`: split off the command name,
look it up in the registry, and delegate; unknown names fail with the fixed
message. -/
def ExecuteDispatch (s : system D) (cmd_str : String) (UserID : Int)
    (wallMillis : Nat) : String × system D :=
  match lookupCmd s.m_Commands (getCommandName cmd_str) with
  | some Cmd => ExecuteTyped s Cmd cmd_str UserID wallMillis
  | none => ("Unable find the command: " ++ getCommandName cmd_str, s)

/-- `system::Undo`.  The C++ resolves the command by subscripting
`m_Commands` with the name from the entry's command string and dereferences
the stored pointer with no absence check; `none` models that undefined
behaviour, and also the `assert(!m_CacheUndoData.empty())` failure after a
synchronous warm-up that could not produce a payload (including the
asserted-impossible warm-up in in-memory mode). -/
def Undo (s : system D) : Option (system D) :=
  if s.m_UndoIndex = 0 then some s
  else
    let idx := s.m_UndoIndex - 1
    let eid := s.m_History.getD idx 0
    match lookupCmd s.m_Commands (getCommandName (s.m_Store eid).m_CommandString) with
    | none => none
    | some Cmd =>
      let s1 := if (s.m_Store eid).m_CacheUndoData = [] then
                  runJob s (job.warmup_cache eid)
                else s
      let e := s1.m_Store eid
      if e.m_CacheUndoData = [] then none
      else
        let s2 := { s1 with m_UndoIndex := idx,
                            m_Data := Cmd.Undo e.m_CacheUndoData s1.m_Data }
        if s2.m_UndoPath ≠ "" then
          some (UpdateLRU { s2 with m_LRU := s2.m_LRU ++ [eid] })
        else some s2

/-- `system::Redo`: no-op at the right boundary; re-parse the target entry's
command string and re-apply it, silently returning without moving the
cursor on any error; the cursor advances only after `UpdateLRU`. -/
def Redo (s : system D) : Option (system D) :=
  if s.m_History.length ≤ s.m_UndoIndex then some s
  else
    let eid := s.m_History.getD s.m_UndoIndex 0
    let e := s.m_Store eid
    match lookupCmd s.m_Commands (getCommandName e.m_CommandString) with
    | none => none
    | some Cmd =>
      if Cmd.Parse e.m_CommandString ≠ "" then some s
      else
        let rd := Cmd.Redo e.m_CommandString s.m_Data
        if rd.1 ≠ "" then some { s with m_Data := rd.2 }
        else
          let s1 := { s with m_Data := rd.2 }
          let s2 := if s1.m_UndoPath ≠ "" then
                      UpdateLRU { s1 with m_LRU := s1.m_LRU ++ [eid] }
                    else s1
          some { s2 with m_UndoIndex := s2.m_UndoIndex + 1 }

/-- `system::RegisterCommand` (called from the `command_base` constructor):
`m_Commands[name] = &Cmd` — insert or overwrite. -/
def RegisterCommand (s : system D) (Cmd : command_base D) (Name : String) :
    system D :=
  { s with m_Commands := (Name, Cmd) :: s.m_Commands.filter (fun p => !(p.1 == Name)) }

/-! ## Invariants and derived quantities -/

/-- The timestamps along the history timeline. -/
def stampsOf (s : system D) : List Nat :=
  s.m_History.map (fun eid => (s.m_Store eid).m_TimeStamp)

/-- Timestamp invariant: strictly increasing along the timeline, and every
recorded stamp lies below the next value `wallMillis * 1000 +
m_CommandCounter` the engine would assign (the wall clock never runs
backwards for the engine: `m_WallMillis` is its last reading). -/
def StampInv (s : system D) : Prop :=
  (stampsOf s).Pairwise (· < ·)
    ∧ ∀ t ∈ stampsOf s, t < s.m_WallMillis * 1000 + s.m_CommandCounter

/-- Unsaved-entry condition on a heap prefix: an entry that has never been
saved to disk still holds its in-memory payload. -/
def EntriesInvOn (σ : Nat → history_entry) (n : Nat) : Prop :=
  ∀ i, i < n → (σ i).m_bHasBeenSaved = false → (σ i).m_CacheUndoData ≠ []

/-- Unsaved-entry invariant of the engine: over all allocated entries. -/
def EntriesInv (s : system D) : Prop :=
  EntriesInvOn s.m_Store s.m_StoreLen

/-- Whether a job is a cache warm-up. -/
def isWarmup : job → Bool
  | job.warmup_cache _ => true
  | _ => false

/-- How the entry heap can change across an `UpdateLRU`: each entry is
untouched, or — only when it has been saved — its payload is cleared. -/
def StoreEvolve (σ τ : Nat → history_entry) : Prop :=
  ∀ i, τ i = σ i
    ∨ ((σ i).m_bHasBeenSaved = true ∧ τ i = { σ i with m_CacheUndoData := [] })

/-- Frame of `UpdateLRU` (and of its phases): every field except the window,
the heap payloads and the job queue is untouched; the heap only evolves by
saved-payload eviction; the queue is only extended, and only with warm-up
jobs. -/
def FrameULRU (s out : system D) : Prop :=
  out.m_UndoIndex = s.m_UndoIndex ∧ out.m_History = s.m_History ∧
  out.m_Commands = s.m_Commands ∧ out.m_UndoPath = s.m_UndoPath ∧
  out.m_DefaultUser = s.m_DefaultUser ∧ out.m_MaxCachedSteps = s.m_MaxCachedSteps ∧
  out.m_LookAheadSteps = s.m_LookAheadSteps ∧ out.m_CommandCounter = s.m_CommandCounter ∧
  out.m_StoreLen = s.m_StoreLen ∧ out.m_Disk = s.m_Disk ∧
  out.m_WallMillis = s.m_WallMillis ∧ out.m_Data = s.m_Data ∧
  StoreEvolve s.m_Store out.m_Store ∧
  ∃ q, out.m_IOQueue = s.m_IOQueue ++ q ∧ ∀ j ∈ q, isWarmup j = true

/-- Jobs reference only allocated entries (C++ jobs hold live
`shared_ptr`s). -/
def jobInRange (n : Nat) : job → Bool
  | job.save_to_disk eid => eid < n
  | job.warmup_cache eid => eid < n
  | job.load_entries eid => eid < n
  | job.delete_entries _ => true

/-- Number of allocated entries whose payload is resident. -/
def nonEmptyPayloadCount (s : system D) : Nat :=
  ((List.range s.m_StoreLen).filter
    (fun i => !(s.m_Store i).m_CacheUndoData.isEmpty)).length

/-! ## Concrete instances used to evaluate the model

A `Move`-style command over a counter database (the repository's example
command moves a 2-D cursor; a single counter suffices to observe the same
execute/undo/redo dataflow): `Redo` bumps the counter, `BackupCurrenState`
records the pre-state in a non-empty payload, `Undo` restores it. -/

def cmdMove : command_base Nat :=
  { Parse := fun _ => "", hasHelpOption := fun _ => false,
    Redo := fun _ d => ("", d + 1),
    Undo := fun p _ => p.headD 0,
    BackupCurrenState := fun d => [d, 0] }

/-- A command whose `Redo` reports a domain error. -/
def cmdBoom : command_base Nat :=
  { Parse := fun _ => "", hasHelpOption := fun _ => false,
    Redo := fun _ d => ("boom", d),
    Undo := fun _ d => d, BackupCurrenState := fun d => [d, 0] }

/-- A command whose parser rejects every argument string. -/
def cmdBadArgs : command_base Nat :=
  { Parse := fun _ => "bad arguments", hasHelpOption := fun _ => false,
    Redo := fun _ d => ("", d),
    Undo := fun _ d => d, BackupCurrenState := fun d => [d, 0] }

/-- A command that reports the help flag present on every string. -/
def cmdHelp : command_base Nat :=
  { Parse := fun _ => "", hasHelpOption := fun _ => true,
    Redo := fun _ d => ("", d + 1),
    Undo := fun _ d => d, BackupCurrenState := fun d => [d, 0] }

/-- A freshly `Init`-ed engine over the counter database, with the default
member values of `class system` (`m_DefaultUser = 1`, `m_MaxCachedSteps =
50`, `m_LookAheadSteps = 5`). -/
def sysInit (path : String) : system Nat :=
  { m_UndoIndex := 0, m_History := [], m_LRU := [], m_Commands := [],
    m_UndoPath := path, m_DefaultUser := 1, m_MaxCachedSteps := 50,
    m_LookAheadSteps := 5, m_IOQueue := [], m_CommandCounter := 0,
    m_StoreLen := 0, m_Store := fun _ => default, m_Disk := fun _ => none,
    m_WallMillis := 0, m_Data := 0 }

/-- In-memory engine with the example commands registered. -/
def sysMem : system Nat :=
  RegisterCommand (RegisterCommand (RegisterCommand (sysInit "") cmdMove "Move")
    cmdBoom "Boom") cmdBadArgs "Bad"

/-- Persistent-mode engine (path `undo_data`) with the example command. -/
def sysDisk : system Nat :=
  RegisterCommand (sysInit "undo_data") cmdMove "Move"

/-- One dispatch execute of the move command at a standing wall clock. -/
def execMove (s : system Nat) : system Nat :=
  (ExecuteDispatch s "Move" (-1) 0).2

/-- Iterated executes. -/
def iterExec : Nat → system Nat → system Nat
  | 0, s => s
  | n + 1, s => iterExec n (execMove s)

/-- The `history_entry` a successful typed `Execute` appends: default-user
substitution, timestamp `wall_clock_millis * 1000 + command_counter`, the
command string as given, the backup of the pre-execution state, not yet
saved. -/
def newEntryOf (s : system D) (Cmd : command_base D) (cmd_str : String)
    (UserID : Int) (wallMillis : Nat) : history_entry :=
  { m_UserID := if UserID = -1 then s.m_DefaultUser else UserID,
    m_TimeStamp := wallMillis * 1000 + s.m_CommandCounter,
    m_CommandString := cmd_str,
    m_CacheUndoData := Cmd.BackupCurrenState s.m_Data,
    m_bHasBeenSaved := false }

/-- In-memory engine after one `Move`. -/
def sysOne : system Nat := execMove sysMem

/-- In-memory engine after two `Move`s. -/
def sysTwo : system Nat := execMove sysOne

/-- In-memory engine after two `Move`s and one `Undo` (cursor mid-history). -/
def sysTwoUndone : system Nat := (Undo sysTwo).getD sysTwo

/-- Persistent engine after two `Move`s and one `Undo`. -/
def sysDiskTwoUndone : system Nat :=
  (Undo (execMove (execMove sysDisk))).getD sysDisk

/-- A persistent engine whose cursor sits at 1 in a 2-entry history with
both payloads paged out (both entries saved, as after an index reload):
the exact shape the look-ahead phase of `UpdateLRU` works on. -/
def c9state : system Nat :=
  { sysInit "undo_data" with
    m_Commands := [("Move", cmdMove)],
    m_History := [0, 1], m_UndoIndex := 1, m_StoreLen := 2,
    m_Store := fun i =>
      if i = 0 then
        { m_UserID := 1, m_TimeStamp := 10, m_CommandString := "Move",
          m_CacheUndoData := [], m_bHasBeenSaved := true }
      else if i = 1 then
        { m_UserID := 1, m_TimeStamp := 11, m_CommandString := "Move",
          m_CacheUndoData := [], m_bHasBeenSaved := true }
      else default }

/-! ## Serialization lemmas -/

lemma length_toBytesLE (k n : Nat) : (toBytesLE k n).length = k := by
  induction k generalizing n with
  | zero => rfl
  | succ k ih => simp [toBytesLE, ih]

lemma fromBytesLE_toBytesLE (k n : Nat) (h : n < 256 ^ k) :
    fromBytesLE (toBytesLE k n) = n := by
  induction k generalizing n with
  | zero =>
    simp only [pow_zero, Nat.lt_one_iff] at h
    simp [toBytesLE, fromBytesLE, h]
  | succ k ih =>
    have h2 : n / 256 < 256 ^ k := by
      rw [Nat.div_lt_iff_lt_mul (by norm_num : 0 < 256)]
      calc n < 256 ^ (k + 1) := h
        _ = 256 ^ k * 256 := by rw [pow_succ]
    simp only [toBytesLE, fromBytesLE, ih _ h2]
    omega

lemma readNum_append (k n : Nat) (rest : List Nat) (h : n < 256 ^ k) :
    readNum k (toBytesLE k n ++ rest) = some (n, rest) := by
  have hl := length_toBytesLE k n
  unfold readNum
  rw [if_pos (by simp [List.length_append, hl])]
  rw [List.take_left' hl, List.drop_left' hl, fromBytesLE_toBytesLE k n h]

lemma intToU32_lt (i : Int) : intToU32 i < 2 ^ 32 := by
  unfold intToU32
  have h1 := Int.emod_nonneg i (by norm_num : ((2 : Int) ^ 32) ≠ 0)
  have h2 := Int.emod_lt_of_pos i (by norm_num : (0 : Int) < 2 ^ 32)
  have e1 : ((2 : Int) ^ 32) = 4294967296 := by norm_num
  rw [e1] at h1 h2
  omega

lemma u32ToInt_intToU32 (i : Int) (h1 : -(2 : Int) ^ 31 ≤ i) (h2 : i < 2 ^ 31) :
    u32ToInt (intToU32 i) = i := by
  unfold u32ToInt intToU32
  have e1 : ((2 : Int) ^ 32) = 4294967296 := by norm_num
  have e2 : ((2 : Int) ^ 31) = 2147483648 := by norm_num
  have h3 := Int.emod_nonneg i (by norm_num : ((2 : Int) ^ 32) ≠ 0)
  have h4 := Int.emod_lt_of_pos i (by norm_num : (0 : Int) < 2 ^ 32)
  rw [e1] at h3 h4 ⊢
  rw [e2] at h1 h2
  have h5 : i % 4294967296 = i ∨ i % 4294967296 = i + 4294967296 := by omega
  split <;> rename_i hlt <;> omega

/-- C8.  Round trip of the per-entry on-disk format: for any entry with
key-data `(user_id, timestamp, command)` and payload `P` (lengths
representable in the `u32`/`i32`/`u64` fields the file stores), `Save`'s
byte stream read back by `Load` with both `load_key_data` and
`load_payload` enabled yields the same user id, timestamp and command
string, and a payload equal to `P` byte-for-byte. -/
theorem c8_save_load_roundtrip (e skel : entry_record)
    (hp : e.payload.length < 2 ^ 32) (hc : e.command.length < 2 ^ 32)
    (hu1 : -(2 : Int) ^ 31 ≤ e.userId) (hu2 : e.userId < 2 ^ 31)
    (ht : e.timeStamp < 2 ^ 64) :
    load_bytes true true (save_bytes e) skel = some e := by
  have e4 : (256 : Nat) ^ 4 = 2 ^ 32 := by norm_num
  have e8 : (256 : Nat) ^ 8 = 2 ^ 64 := by norm_num
  obtain ⟨p, u, t, c⟩ := e
  simp only at hp hc hu1 hu2 ht
  have r1 : readNum 4 (toBytesLE 4 p.length ++ (p ++ (toBytesLE 4 (intToU32 u)
        ++ (toBytesLE 8 t ++ (toBytesLE 4 c.length ++ c)))))
      = some (p.length, p ++ (toBytesLE 4 (intToU32 u)
        ++ (toBytesLE 8 t ++ (toBytesLE 4 c.length ++ c)))) :=
    readNum_append 4 _ _ (e4 ▸ hp)
  have r2 : readNum 4 (toBytesLE 4 (intToU32 u)
        ++ (toBytesLE 8 t ++ (toBytesLE 4 c.length ++ c)))
      = some (intToU32 u, toBytesLE 8 t ++ (toBytesLE 4 c.length ++ c)) :=
    readNum_append 4 _ _ (e4 ▸ intToU32_lt u)
  have r3 : readNum 8 (toBytesLE 8 t ++ (toBytesLE 4 c.length ++ c))
      = some (t, toBytesLE 4 c.length ++ c) :=
    readNum_append 8 _ _ (e8 ▸ ht)
  have r4 : readNum 4 (toBytesLE 4 c.length ++ c) = some (c.length, c) :=
    readNum_append 4 _ _ (e4 ▸ hc)
  simp [save_bytes, load_bytes, r1, r2, r3, r4, List.take_left, List.drop_left,
    u32ToInt_intToU32 u hu1 hu2]

/-- Witness for C8 at a concrete entry. -/
theorem c8_witness :
    load_bytes true true
      (save_bytes { payload := [7, 1], userId := -3, timeStamp := 99,
                    command := [77, 118] })
      { payload := [], userId := 0, timeStamp := 0, command := [] } =
    some { payload := [7, 1], userId := -3, timeStamp := 99, command := [77, 118] } :=
  c8_save_load_roundtrip _ _ (by norm_num) (by norm_num) (by norm_num)
    (by norm_num) (by norm_num)

/-! ## Frame lemmas for the LRU machinery -/

lemma storeEvolve_refl (σ : Nat → history_entry) : StoreEvolve σ σ :=
  fun _ => Or.inl rfl

lemma storeEvolve_trans {σ τ ρ : Nat → history_entry}
    (h1 : StoreEvolve σ τ) (h2 : StoreEvolve τ ρ) : StoreEvolve σ ρ := by
  intro i
  rcases h2 i with e2 | ⟨f2, e2⟩
  · rw [e2]; exact h1 i
  · rcases h1 i with e1 | ⟨f1, e1⟩
    · rw [e1] at f2 e2; exact Or.inr ⟨f2, e2⟩
    · refine Or.inr ⟨f1, ?_⟩
      rw [e2, e1]

lemma storeEvolve_fields {σ τ : Nat → history_entry} (h : StoreEvolve σ τ)
    (i : Nat) :
    (τ i).m_TimeStamp = (σ i).m_TimeStamp ∧ (τ i).m_UserID = (σ i).m_UserID ∧
    (τ i).m_CommandString = (σ i).m_CommandString ∧
    (τ i).m_bHasBeenSaved = (σ i).m_bHasBeenSaved := by
  rcases h i with e | ⟨_, e⟩ <;> simp [e]

lemma storeEvolve_payload {σ τ : Nat → history_entry} (h : StoreEvolve σ τ)
    (i : Nat) :
    (τ i).m_CacheUndoData = (σ i).m_CacheUndoData ∨ (τ i).m_CacheUndoData = [] := by
  rcases h i with e | ⟨_, e⟩ <;> simp [e]

lemma clearIfSaved_evolve (σ : Nat → history_entry) (eid : Nat) :
    StoreEvolve σ (clearIfSaved σ eid) := by
  intro i
  unfold clearIfSaved
  split
  · unfold setStore
    split
    · rename_i hsv hi
      subst hi
      exact Or.inr ⟨hsv, rfl⟩
    · exact Or.inl rfl
  · exact Or.inl rfl

lemma evictLoop_evolve (target : Nat) :
    ∀ (l : List Nat) (σ : Nat → history_entry),
      StoreEvolve σ (evictLoop target l σ).2 := by
  intro l
  induction l with
  | nil => intro σ; exact storeEvolve_refl σ
  | cons eid rest ih =>
    intro σ
    unfold evictLoop
    split
    · exact storeEvolve_refl σ
    · exact storeEvolve_trans (clearIfSaved_evolve σ eid) (ih _)

lemma evictLoop_len (target : Nat) :
    ∀ (l : List Nat) (σ : Nat → history_entry),
      (evictLoop target l σ).1.length ≤ target := by
  intro l
  induction l with
  | nil => intro σ; simp [evictLoop]
  | cons eid rest ih =>
    intro σ
    unfold evictLoop
    split
    · simpa using by assumption
    · exact ih _

lemma frameULRU_refl (s : system D) : FrameULRU s s :=
  ⟨rfl, rfl, rfl, rfl, rfl, rfl, rfl, rfl, rfl, rfl, rfl, rfl,
    storeEvolve_refl _, [], by simp, by simp⟩

lemma frameULRU_trans {s t u : system D}
    (h1 : FrameULRU s t) (h2 : FrameULRU t u) : FrameULRU s u := by
  obtain ⟨a1, a2, a3, a4, a5, a6, a7, a8, a9, a10, a11, a12, a13, q1, a14, a15⟩ := h1
  obtain ⟨b1, b2, b3, b4, b5, b6, b7, b8, b9, b10, b11, b12, b13, q2, b14, b15⟩ := h2
  refine ⟨b1.trans a1, b2.trans a2, b3.trans a3, b4.trans a4, b5.trans a5,
    b6.trans a6, b7.trans a7, b8.trans a8, b9.trans a9, b10.trans a10,
    b11.trans a11, b12.trans a12, storeEvolve_trans a13 b13, q1 ++ q2, ?_, ?_⟩
  · rw [b14, a14, List.append_assoc]
  · intro j hj
    rcases List.mem_append.mp hj with h | h
    · exact a15 j h
    · exact b15 j h

lemma frameULRU_push (s : system D) (eid : Nat) :
    FrameULRU s { s with m_IOQueue := s.m_IOQueue ++ [job.warmup_cache eid],
                         m_LRU := s.m_LRU ++ [eid] } :=
  ⟨rfl, rfl, rfl, rfl, rfl, rfl, rfl, rfl, rfl, rfl, rfl, rfl,
    storeEvolve_refl _, [job.warmup_cache eid], rfl, by simp [isWarmup]⟩

lemma lookAheadStep_frame (s : system D) (i : Nat) :
    FrameULRU s (lookAheadStep s i) := by
  unfold lookAheadStep
  dsimp only
  split
  · split
    · exact frameULRU_trans (frameULRU_push s _) (frameULRU_push _ _)
    · exact frameULRU_push s _
  · split
    · exact frameULRU_push s _
    · exact frameULRU_refl s

lemma lookAheadStep_lru (s : system D) (i : Nat) :
    ∃ l, (lookAheadStep s i).m_LRU = s.m_LRU ++ l ∧ l.length ≤ 2 := by
  unfold lookAheadStep
  dsimp only
  split
  · split
    · exact ⟨[s.m_History.getD (s.m_UndoIndex - i) 0,
        s.m_History.getD (s.m_UndoIndex + i) 0], by simp, by simp⟩
    · exact ⟨[s.m_History.getD (s.m_UndoIndex + i) 0], rfl, by simp⟩
  · split
    · exact ⟨[s.m_History.getD (s.m_UndoIndex - i) 0], rfl, by simp⟩
    · exact ⟨[], by simp, by simp⟩

lemma lookAheadLoop_frame (fuel : Nat) :
    ∀ (s : system D) (i : Nat), FrameULRU s (lookAheadLoop s i fuel) := by
  induction fuel with
  | zero => intro s i; exact frameULRU_refl s
  | succ fuel ih =>
    intro s i
    unfold lookAheadLoop
    split
    · exact frameULRU_trans (lookAheadStep_frame s i) (ih _ _)
    · exact frameULRU_refl s

lemma lookAheadLoop_len (fuel : Nat) :
    ∀ (s : system D) (i : Nat),
      (lookAheadLoop s i fuel).m_LRU.length ≤ s.m_LRU.length + 2 * fuel := by
  induction fuel with
  | zero => intro s i; simp [lookAheadLoop]
  | succ fuel ih =>
    intro s i
    unfold lookAheadLoop
    split
    · obtain ⟨l, hl, hlen⟩ := lookAheadStep_lru s i
      calc (lookAheadLoop (lookAheadStep s i) (i + 1) fuel).m_LRU.length
          ≤ (lookAheadStep s i).m_LRU.length + 2 * fuel := ih _ _
        _ ≤ s.m_LRU.length + 2 * (fuel + 1) := by
            rw [hl, List.length_append]; omega
    · omega

lemma UpdateLRU_frame (s : system D) : FrameULRU s (UpdateLRU s) := by
  unfold UpdateLRU
  split
  · exact frameULRU_refl s
  · refine frameULRU_trans (t := { s with
      m_LRU := (evictLoop (s.m_MaxCachedSteps - (s.m_LookAheadSteps * 2 + 1))
        s.m_LRU s.m_Store).1,
      m_Store := (evictLoop (s.m_MaxCachedSteps - (s.m_LookAheadSteps * 2 + 1))
        s.m_LRU s.m_Store).2 }) ?_ (lookAheadLoop_frame _ _ _)
    exact ⟨rfl, rfl, rfl, rfl, rfl, rfl, rfl, rfl, rfl, rfl, rfl, rfl,
      evictLoop_evolve _ _ _, [], by simp, by simp⟩

lemma UpdateLRU_len (s : system D)
    (hcfg : s.m_LookAheadSteps * 2 + 1 < s.m_MaxCachedSteps)
    (hne : s.m_History ≠ []) :
    (UpdateLRU s).m_LRU.length < s.m_MaxCachedSteps := by
  unfold UpdateLRU
  rw [if_neg hne]
  calc (lookAheadLoop _ 1 s.m_LookAheadSteps).m_LRU.length
      ≤ (evictLoop (s.m_MaxCachedSteps - (s.m_LookAheadSteps * 2 + 1))
          s.m_LRU s.m_Store).1.length + 2 * s.m_LookAheadSteps :=
        lookAheadLoop_len _ _ _
    _ ≤ (s.m_MaxCachedSteps - (s.m_LookAheadSteps * 2 + 1))
          + 2 * s.m_LookAheadSteps := by
        have := evictLoop_len (s.m_MaxCachedSteps - (s.m_LookAheadSteps * 2 + 1))
          s.m_LRU s.m_Store
        omega
    _ < s.m_MaxCachedSteps := by omega

lemma UpdateLRU_proj (s : system D) :
    (UpdateLRU s).m_UndoIndex = s.m_UndoIndex ∧
    (UpdateLRU s).m_History = s.m_History ∧
    (UpdateLRU s).m_Commands = s.m_Commands ∧
    (UpdateLRU s).m_UndoPath = s.m_UndoPath ∧
    (UpdateLRU s).m_DefaultUser = s.m_DefaultUser ∧
    (UpdateLRU s).m_MaxCachedSteps = s.m_MaxCachedSteps ∧
    (UpdateLRU s).m_LookAheadSteps = s.m_LookAheadSteps ∧
    (UpdateLRU s).m_CommandCounter = s.m_CommandCounter ∧
    (UpdateLRU s).m_StoreLen = s.m_StoreLen ∧
    (UpdateLRU s).m_Disk = s.m_Disk ∧
    (UpdateLRU s).m_WallMillis = s.m_WallMillis ∧
    (UpdateLRU s).m_Data = s.m_Data := by
  obtain ⟨a1, a2, a3, a4, a5, a6, a7, a8, a9, a10, a11, a12, -, -⟩ :=
    UpdateLRU_frame s
  exact ⟨a1, a2, a3, a4, a5, a6, a7, a8, a9, a10, a11, a12⟩

lemma UpdateLRU_store_evolve (s : system D) :
    StoreEvolve s.m_Store (UpdateLRU s).m_Store := by
  obtain ⟨-, -, -, -, -, -, -, -, -, -, -, -, hev, -⟩ := UpdateLRU_frame s
  exact hev

lemma UpdateLRU_queue (s : system D) :
    ∃ q, (UpdateLRU s).m_IOQueue = s.m_IOQueue ++ q ∧
      ∀ j ∈ q, isWarmup j = true := by
  obtain ⟨-, -, -, -, -, -, -, -, -, -, -, -, -, q, hq, hw⟩ := UpdateLRU_frame s
  exact ⟨q, hq, hw⟩

/-! ## PruneHistory and the Execute success path -/

lemma PruneHistory_eq (s : system D) :
    PruneHistory s = { s with
      m_History := s.m_History.take s.m_UndoIndex,
      m_IOQueue := s.m_IOQueue ++
        (if s.m_UndoIndex < s.m_History.length ∧ ¬ s.m_UndoPath = ""
         then [job.delete_entries (droppedStamps s)] else []) } := by
  obtain ⟨u, h, l, c, p, du, m, la, q, cc, sl, st, dk, wm, d⟩ := s
  unfold PruneHistory
  dsimp only
  by_cases h1 : h.length ≤ u
  · rw [if_pos h1, if_neg (by omega), List.append_nil,
      List.take_of_length_le h1]
  · rw [if_neg h1]
    by_cases h2 : p = ""
    · rw [if_pos h2, if_neg (fun hc => hc.2 h2), List.append_nil]
    · rw [if_neg h2, if_pos ⟨by omega, h2⟩]

lemma UL_undoIndex (s : system D) : (UpdateLRU s).m_UndoIndex = s.m_UndoIndex :=
  (UpdateLRU_proj s).1
lemma UL_history (s : system D) : (UpdateLRU s).m_History = s.m_History :=
  (UpdateLRU_proj s).2.1
lemma UL_commands (s : system D) : (UpdateLRU s).m_Commands = s.m_Commands :=
  (UpdateLRU_proj s).2.2.1
lemma UL_path (s : system D) : (UpdateLRU s).m_UndoPath = s.m_UndoPath :=
  (UpdateLRU_proj s).2.2.2.1
lemma UL_defaultUser (s : system D) : (UpdateLRU s).m_DefaultUser = s.m_DefaultUser :=
  (UpdateLRU_proj s).2.2.2.2.1
lemma UL_max (s : system D) : (UpdateLRU s).m_MaxCachedSteps = s.m_MaxCachedSteps :=
  (UpdateLRU_proj s).2.2.2.2.2.1
lemma UL_la (s : system D) : (UpdateLRU s).m_LookAheadSteps = s.m_LookAheadSteps :=
  (UpdateLRU_proj s).2.2.2.2.2.2.1
lemma UL_counter (s : system D) : (UpdateLRU s).m_CommandCounter = s.m_CommandCounter :=
  (UpdateLRU_proj s).2.2.2.2.2.2.2.1
lemma UL_storeLen (s : system D) : (UpdateLRU s).m_StoreLen = s.m_StoreLen :=
  (UpdateLRU_proj s).2.2.2.2.2.2.2.2.1
lemma UL_disk (s : system D) : (UpdateLRU s).m_Disk = s.m_Disk :=
  (UpdateLRU_proj s).2.2.2.2.2.2.2.2.2.1
lemma UL_wall (s : system D) : (UpdateLRU s).m_WallMillis = s.m_WallMillis :=
  (UpdateLRU_proj s).2.2.2.2.2.2.2.2.2.2.1
lemma UL_data (s : system D) : (UpdateLRU s).m_Data = s.m_Data :=
  (UpdateLRU_proj s).2.2.2.2.2.2.2.2.2.2.2
lemma UpdateLRU_queue_eq (s : system D) (base : List job)
    (h : s.m_IOQueue = base) :
    ∃ qw, (∀ j ∈ qw, isWarmup j = true) ∧
      (UpdateLRU s).m_IOQueue = base ++ qw := by
  obtain ⟨q, hq, hw⟩ := UpdateLRU_queue s
  exact ⟨q, hw, by rw [hq, h]⟩

/-- Characterization of a successful recording Execute. -/
lemma ExecuteTyped_success_parts (s : system D) (Cmd : command_base D)
    (cmd_str : String) (uid : Int) (w : Nat)
    (hparse : Cmd.Parse cmd_str = "")
    (hhelp : Cmd.hasHelpOption cmd_str = false)
    (hredo : (Cmd.Redo cmd_str s.m_Data).1 = "") :
    ∃ out, ExecuteTyped s Cmd cmd_str uid w = ("", out) ∧
      out.m_UndoIndex = s.m_UndoIndex + 1 ∧
      out.m_History = s.m_History.take s.m_UndoIndex ++ [s.m_StoreLen] ∧
      out.m_StoreLen = s.m_StoreLen + 1 ∧
      out.m_CommandCounter = s.m_CommandCounter + 1 ∧
      out.m_WallMillis = w ∧
      out.m_Data = (Cmd.Redo cmd_str s.m_Data).2 ∧
      out.m_Commands = s.m_Commands ∧
      out.m_UndoPath = s.m_UndoPath ∧
      out.m_MaxCachedSteps = s.m_MaxCachedSteps ∧
      out.m_LookAheadSteps = s.m_LookAheadSteps ∧
      out.m_DefaultUser = s.m_DefaultUser ∧
      out.m_Disk = s.m_Disk ∧
      StoreEvolve (setStore s.m_Store s.m_StoreLen
        (newEntryOf s Cmd cmd_str uid w)) out.m_Store ∧
      (s.m_UndoPath = "" → out.m_IOQueue = s.m_IOQueue) ∧
      (¬ s.m_UndoPath = "" →
        ∃ qw, (∀ j ∈ qw, isWarmup j = true) ∧
          out.m_IOQueue = (s.m_IOQueue ++
              (if s.m_UndoIndex < s.m_History.length
               then [job.delete_entries (droppedStamps s)] else [])
              ++ [job.save_to_disk s.m_StoreLen]) ++ qw) := by
  unfold ExecuteTyped
  simp only [hparse, hhelp, hredo, ne_eq, not_true_eq_false, not_false_eq_true,
    if_false, if_true, Bool.false_eq_true, ite_false, ite_true]
  rw [PruneHistory_eq]
  dsimp only
  by_cases hpath : s.m_UndoPath = ""
  · rw [if_neg (by simp [hpath]), if_neg (by simp [hpath])]
    exact ⟨_, rfl, rfl, rfl, rfl, rfl, rfl, rfl, rfl, rfl, rfl, rfl, rfl, rfl,
      storeEvolve_refl _, fun _ => by simp, fun hc => absurd hpath hc⟩
  · rw [if_pos hpath]
    refine ⟨_, rfl, ?_, ?_, ?_, ?_, ?_, ?_, ?_, ?_, ?_, ?_, ?_, ?_, ?_,
      fun hc => absurd hc hpath, fun _ => ?_⟩
    · simp [UL_undoIndex]
    · simp [UL_history]
    · simp [UL_storeLen]
    · simp [UL_counter]
    · simp [UL_wall]
    · simp [UL_data]
    · simp [UL_commands]
    · simp [UL_path]
    · simp [UL_max]
    · simp [UL_la]
    · simp [UL_defaultUser]
    · simp [UL_disk]
    · exact UpdateLRU_store_evolve _
    · exact UpdateLRU_queue_eq _ _ (by simp [hpath]; try rfl)

/-! ## C1: execute success postcondition -/

/-- C1 counterexample.  The claim "after any `execute` that returns the
empty success string, `history.len()` strictly increased" fails: from the
state after two `Move`s and one `Undo` (cursor strictly inside the
history), another successful execute returns the empty string, yet the
prune-tail leaves the history length at 2, not strictly greater than 2. -/
theorem c1_counterexample :
    (ExecuteDispatch sysTwoUndone "Move" (-1) 0).1 = ""
    ∧ sysTwoUndone.m_History.length = 2
    ∧ ¬ (ExecuteDispatch sysTwoUndone "Move" (-1) 0).2.m_History.length
          > sysTwoUndone.m_History.length := by
  decide

/-- C1 (amended).  After a typed or dispatched `execute` that returns the
empty success string with the help flag absent (so an entry is recorded),
`undo_index == history.len()` and both equal the pre-call `undo_index + 1`;
the length strictly increases exactly when the cursor was at the end
before the call.  (The help branch returns success without recording, and
a mid-history execute prunes the tail first, so the unamended "length
strictly increased" fails.) -/
theorem c1_execute_records_at_end (s : system D) (Cmd : command_base D)
    (cmd_str : String) (uid : Int) (w : Nat)
    (hidx : s.m_UndoIndex ≤ s.m_History.length)
    (hparse : Cmd.Parse cmd_str = "")
    (hhelp : Cmd.hasHelpOption cmd_str = false)
    (hredo : (Cmd.Redo cmd_str s.m_Data).1 = "") :
    (ExecuteTyped s Cmd cmd_str uid w).1 = ""
    ∧ (ExecuteTyped s Cmd cmd_str uid w).2.m_UndoIndex
        = (ExecuteTyped s Cmd cmd_str uid w).2.m_History.length
    ∧ (ExecuteTyped s Cmd cmd_str uid w).2.m_UndoIndex = s.m_UndoIndex + 1
    ∧ (s.m_UndoIndex = s.m_History.length →
        (ExecuteTyped s Cmd cmd_str uid w).2.m_History.length
          = s.m_History.length + 1)
    ∧ (lookupCmd s.m_Commands (getCommandName cmd_str) = some Cmd →
        ExecuteDispatch s cmd_str uid w = ExecuteTyped s Cmd cmd_str uid w) := by
  obtain ⟨out, heq, h1, h2, -, -, -, -, -, -, -, -, -, -, -, -, -⟩ :=
    ExecuteTyped_success_parts s Cmd cmd_str uid w hparse hhelp hredo
  rw [heq]
  have hlen : out.m_History.length = s.m_UndoIndex + 1 := by
    rw [h2]
    simp only [List.length_append, List.length_take, List.length_cons,
      List.length_nil]
    omega
  refine ⟨rfl, ?_, h1, ?_, ?_⟩
  · rw [h1, hlen]
  · intro he
    rw [hlen, he]
  · intro hlk
    unfold ExecuteDispatch
    rw [hlk]
    exact heq

/-- Witness for C1 at a fresh in-memory engine. -/
theorem c1_witness :
    (ExecuteTyped sysMem cmdMove "Move" (-1) 0).1 = ""
    ∧ (ExecuteTyped sysMem cmdMove "Move" (-1) 0).2.m_UndoIndex
        = (ExecuteTyped sysMem cmdMove "Move" (-1) 0).2.m_History.length
    ∧ (ExecuteTyped sysMem cmdMove "Move" (-1) 0).2.m_UndoIndex
        = sysMem.m_UndoIndex + 1
    ∧ (sysMem.m_UndoIndex = sysMem.m_History.length →
        (ExecuteTyped sysMem cmdMove "Move" (-1) 0).2.m_History.length
          = sysMem.m_History.length + 1)
    ∧ (lookupCmd sysMem.m_Commands (getCommandName "Move") = some cmdMove →
        ExecuteDispatch sysMem "Move" (-1) 0
          = ExecuteTyped sysMem cmdMove "Move" (-1) 0) :=
  c1_execute_records_at_end sysMem cmdMove "Move" (-1) 0 (by decide) rfl rfl rfl

/-! ## C3: error handling of execute -/

/-- C3.  Unknown command names make the dispatch `Execute` return exactly
`"Unable find the command: <name>"` with the state untouched; a parse
error is returned from the typed `Execute` with the state untouched; a
non-empty error string from the command's `Redo` is returned from
`Execute` with the history sequence, the cursor, the entry heap and the
job queue unchanged — no entry is appended in any of these cases. -/
theorem c3_error_handling (s : system D) (Cmd : command_base D)
    (cmd_str : String) (uid : Int) (w : Nat) :
    (lookupCmd s.m_Commands (getCommandName cmd_str) = none →
      ExecuteDispatch s cmd_str uid w
        = ("Unable find the command: " ++ getCommandName cmd_str, s))
    ∧ (Cmd.Parse cmd_str ≠ "" →
      ExecuteTyped s Cmd cmd_str uid w = (Cmd.Parse cmd_str, s))
    ∧ (Cmd.Parse cmd_str = "" → Cmd.hasHelpOption cmd_str = false →
      (Cmd.Redo cmd_str s.m_Data).1 ≠ "" →
      (ExecuteTyped s Cmd cmd_str uid w).1 = (Cmd.Redo cmd_str s.m_Data).1
      ∧ (ExecuteTyped s Cmd cmd_str uid w).2.m_History = s.m_History
      ∧ (ExecuteTyped s Cmd cmd_str uid w).2.m_UndoIndex = s.m_UndoIndex
      ∧ (ExecuteTyped s Cmd cmd_str uid w).2.m_StoreLen = s.m_StoreLen
      ∧ (ExecuteTyped s Cmd cmd_str uid w).2.m_IOQueue = s.m_IOQueue) := by
  refine ⟨?_, ?_, ?_⟩
  · intro h
    unfold ExecuteDispatch
    rw [h]
  · intro h
    unfold ExecuteTyped
    rw [if_pos h]
  · intro h1 h2 h3
    unfold ExecuteTyped
    simp only [h1, h2, ne_eq, not_true_eq_false, not_false_eq_true, if_false,
      if_true, Bool.false_eq_true, ite_false, ite_true]
    rw [if_pos h3]
    exact ⟨rfl, rfl, rfl, rfl, rfl⟩

/-- Witness for C3: an unknown name, a parse failure, and a redo failure on
a fresh in-memory engine with the example commands registered. -/
theorem c3_witness :
    ExecuteDispatch sysMem "Zap" (-1) 0 = ("Unable find the command: Zap", sysMem)
    ∧ ExecuteTyped sysMem cmdBadArgs "Bad" (-1) 0 = ("bad arguments", sysMem)
    ∧ (ExecuteTyped sysMem cmdBoom "Boom" (-1) 0).1 = "boom"
    ∧ (ExecuteTyped sysMem cmdBoom "Boom" (-1) 0).2.m_History = sysMem.m_History :=
  ⟨(c3_error_handling sysMem cmdMove "Zap" (-1) 0).1 rfl,
   (c3_error_handling sysMem cmdBadArgs "Bad" (-1) 0).2.1 (by decide),
   ((c3_error_handling sysMem cmdBoom "Boom" (-1) 0).2.2 rfl rfl (by decide)).1,
   ((c3_error_handling sysMem cmdBoom "Boom" (-1) 0).2.2 rfl rfl (by decide)).2.1⟩

/-! ## C4: strictly increasing timestamps -/

/-- C4.  Within one engine instance, the timestamp assignment
`wall_clock_millis * 1000 + command_counter++` keeps the timestamps along
the history strictly increasing across any `Execute`, even when the wall
clock does not advance (`w` may equal the previous reading; it only must
not run backwards), because the counter is bumped on every recording
attempt: `StampInv` (adjacent-entry strict increase plus the freshness
bound for the next assignment) is preserved by every dispatch `Execute`. -/
theorem c4_timestamps_strictly_increase (s : system D) (cmd_str : String)
    (uid : Int) (w : Nat)
    (hids : ∀ eid ∈ s.m_History, eid < s.m_StoreLen)
    (hwall : s.m_WallMillis ≤ w)
    (hinv : StampInv s) :
    StampInv (ExecuteDispatch s cmd_str uid w).2 := by
  unfold ExecuteDispatch
  cases hlk : lookupCmd s.m_Commands (getCommandName cmd_str) with
  | none => exact hinv
  | some Cmd =>
    unfold ExecuteTyped
    dsimp only
    by_cases hp : Cmd.Parse cmd_str = ""
    case neg =>
      rw [if_pos hp]
      exact hinv
    case pos =>
    by_cases hh : Cmd.hasHelpOption cmd_str = true
    case pos =>
      rw [if_neg (by simp [hp]), if_pos hh]
      exact hinv
    case neg =>
    rw [Bool.not_eq_true] at hh
    by_cases hr : (Cmd.Redo cmd_str s.m_Data).1 = ""
    case neg =>
      rw [if_neg (by simp [hp]), if_neg (by simp [hh]), if_pos hr]
      constructor
      · exact hinv.1
      · intro t ht
        have := hinv.2 t ht
        simp only at this ⊢
        omega
    case pos =>
      obtain ⟨out, heq, h1, h2, h3, h4, h5, h6, h7, h8, h9, h10, h11, h12,
        hev, hq1, hq2⟩ := ExecuteTyped_success_parts s Cmd cmd_str uid w hp hh hr
      show StampInv (ExecuteTyped s Cmd cmd_str uid w).2
      rw [heq]
      have hw1000 : s.m_WallMillis * 1000 ≤ w * 1000 :=
        Nat.mul_le_mul_right _ hwall
      have hstamp : stampsOf out
          = (stampsOf s).take s.m_UndoIndex ++ [w * 1000 + s.m_CommandCounter] := by
        unfold stampsOf
        rw [h2, List.map_append]
        congr 1
        · rw [← List.map_take]
          refine List.map_congr_left ?_
          intro eid hm
          have hlt : eid < s.m_StoreLen := hids eid (List.take_subset _ _ hm)
          obtain ⟨hts, -, -, -⟩ := storeEvolve_fields hev eid
          rw [hts]
          unfold setStore
          rw [if_neg (by omega)]
        · simp only [List.map_cons, List.map_nil]
          obtain ⟨hts, -, -, -⟩ := storeEvolve_fields hev s.m_StoreLen
          rw [hts]
          unfold setStore newEntryOf
          rw [if_pos rfl]
      constructor
      · rw [hstamp, List.pairwise_append]
        refine ⟨List.Pairwise.sublist (List.take_sublist _ _) hinv.1,
          List.pairwise_singleton _ _, ?_⟩
        intro a ha b hb
        simp only [List.mem_singleton] at hb
        subst hb
        have := hinv.2 a (List.take_subset _ _ ha)
        omega
      · intro t ht
        rw [h5, h4]
        rw [hstamp] at ht
        rcases List.mem_append.mp ht with h | h
        · have := hinv.2 t (List.take_subset _ _ h)
          omega
        · simp only [List.mem_singleton] at h
          subst h
          omega


/-- Witness for C4: one `Move` on the fresh persistent engine with a
standing wall clock. -/
theorem c4_witness : StampInv (ExecuteDispatch sysDisk "Move" (-1) 0).2 :=
  c4_timestamps_strictly_increase sysDisk "Move" (-1) 0 (by decide) (by decide)
    ⟨by decide, by decide⟩

lemma entriesInvOn_evolve {σ τ : Nat → history_entry} {n : Nat}
    (h : EntriesInvOn σ n) (hev : StoreEvolve σ τ) : EntriesInvOn τ n := by
  intro i hi hf
  rcases hev i with e | ⟨hsv, e⟩
  · rw [e] at hf ⊢
    exact h i hi hf
  · rw [e] at hf
    exact absurd hf (by simp [hsv])

lemma EntriesInv_UpdateLRU (s : system D) (h : EntriesInv s) :
    EntriesInv (UpdateLRU s) := by
  have hev := UpdateLRU_store_evolve s
  have hlen := UL_storeLen s
  intro i hi
  rw [hlen] at hi
  exact entriesInvOn_evolve h hev i hi

lemma EntriesInv_runJob (s : system D) (j : job) (hinv : EntriesInv s) :
    EntriesInv (runJob s j) := by
  cases j with
  | save_to_disk eid =>
    unfold runJob
    dsimp only
    split
    · exact hinv
    · split
      · intro i hi hf
        dsimp only [setStore] at hf hi ⊢
        by_cases hieq : i = eid
        · exact absurd hf (by simp [hieq])
        · rw [if_neg hieq] at hf ⊢
          exact hinv i hi hf
      · exact hinv
  | delete_entries ts => exact hinv
  | warmup_cache eid =>
    unfold runJob
    dsimp only
    split
    · rename_i hempty
      split
      · split
        · intro i hi hf
          dsimp only [setStore] at hf hi ⊢
          by_cases hieq : i = eid
          · subst hieq
            rw [if_pos rfl] at hf
            simp only at hf
            exact absurd (hinv i hi hf) (by simp [hempty])
          · rw [if_neg hieq] at hf ⊢
            exact hinv i hi hf
        · exact hinv
      · exact hinv
    · exact hinv
  | load_entries eid =>
    unfold runJob
    dsimp only
    split
    · split
      · intro i hi hf
        dsimp only [setStore] at hf hi ⊢
        by_cases hieq : i = eid
        · subst hieq
          rw [if_pos rfl] at hf ⊢
          simp only at hf ⊢
          exact hinv i hi hf
        · rw [if_neg hieq] at hf ⊢
          exact hinv i hi hf
      · exact hinv
    · exact hinv


lemma EntriesInv_Undo (s s1 : system D) (h : Undo s = some s1)
    (hinv : EntriesInv s) : EntriesInv s1 := by
  unfold Undo at h
  split at h
  · rw [Option.some.injEq] at h
    subst h
    exact hinv
  · dsimp only at h
    split at h
    · exact absurd h (by simp)
    · by_cases hemp : (s.m_Store
          (s.m_History.getD (s.m_UndoIndex - 1) 0)).m_CacheUndoData = []
      · rw [if_pos hemp] at h
        split at h
        · exact absurd h (by simp)
        · have hWU := EntriesInv_runJob s
            (job.warmup_cache (s.m_History.getD (s.m_UndoIndex - 1) 0)) hinv
          split at h <;> rw [Option.some.injEq] at h <;> subst h
          · exact EntriesInv_UpdateLRU _ hWU
          · exact hWU
      · rw [if_neg hemp] at h
        split at h
        · exact absurd h (by simp)
        · split at h <;> rw [Option.some.injEq] at h <;> subst h
          · exact EntriesInv_UpdateLRU _ hinv
          · exact hinv

lemma EntriesInv_Redo (s s1 : system D) (h : Redo s = some s1)
    (hinv : EntriesInv s) : EntriesInv s1 := by
  unfold Redo at h
  split at h
  · rw [Option.some.injEq] at h
    subst h
    exact hinv
  · dsimp only at h
    split at h
    · exact absurd h (by simp)
    · split at h
      · rw [Option.some.injEq] at h
        subst h
        exact hinv
      · split at h
        · rw [Option.some.injEq] at h
          subst h
          exact hinv
        · rw [Option.some.injEq] at h
          subst h
          split
          · exact EntriesInv_UpdateLRU _ hinv
          · exact hinv


lemma EntriesInv_ExecuteDispatch (s : system D) (cmd_str : String)
    (uid : Int) (w : Nat) (hinv : EntriesInv s)
    (hbk : ∀ p ∈ s.m_Commands, ∀ d, p.2.BackupCurrenState d ≠ []) :
    EntriesInv (ExecuteDispatch s cmd_str uid w).2 := by
  unfold ExecuteDispatch
  cases hlk : lookupCmd s.m_Commands (getCommandName cmd_str) with
  | none => exact hinv
  | some Cmd =>
    have hCmdMem : ∃ p, p ∈ s.m_Commands ∧ p.2 = Cmd := by
      unfold lookupCmd at hlk
      rcases Option.map_eq_some'.mp hlk with ⟨p, hfind, hp2⟩
      exact ⟨p, List.mem_of_find?_eq_some hfind, hp2⟩
    obtain ⟨p, hpmem, hp2⟩ := hCmdMem
    unfold ExecuteTyped
    dsimp only
    by_cases hp' : Cmd.Parse cmd_str = ""
    case neg =>
      rw [if_pos hp']
      exact hinv
    case pos =>
    by_cases hh : Cmd.hasHelpOption cmd_str = true
    case pos =>
      rw [if_neg (by simp [hp']), if_pos hh]
      exact hinv
    case neg =>
    rw [Bool.not_eq_true] at hh
    by_cases hr : (Cmd.Redo cmd_str s.m_Data).1 = ""
    case neg =>
      rw [if_neg (by simp [hp']), if_neg (by simp [hh]), if_pos hr]
      exact hinv
    case pos =>
      obtain ⟨out, heq, h1, h2, h3, h4, h5, h6, h7, h8, h9, h10, h11, h12,
        hev, hq1, hq2⟩ := ExecuteTyped_success_parts s Cmd cmd_str uid w hp' hh hr
      show EntriesInv (ExecuteTyped s Cmd cmd_str uid w).2
      rw [heq]
      have hbase : EntriesInvOn (setStore s.m_Store s.m_StoreLen
          (newEntryOf s Cmd cmd_str uid w)) (s.m_StoreLen + 1) := by
        intro i hi hf
        dsimp only [setStore] at hf ⊢
        by_cases hieq : i = s.m_StoreLen
        · rw [if_pos hieq]
          subst hieq
          unfold newEntryOf
          dsimp only
          rw [← hp2]
          exact hbk p hpmem s.m_Data
        · rw [if_neg hieq] at hf ⊢
          exact hinv i (by omega) hf
      intro i hi
      rw [h3] at hi
      exact entriesInvOn_evolve hbase hev i hi


/-! ## C6: unsaved entries keep their payload -/

/-- C6.  LRU eviction clears an entry's in-memory payload only when
`m_bHasBeenSaved` is true (the eviction loop's heap change is a
`StoreEvolve`), and consequently the invariant "every allocated entry with
`persisted == false` has a non-empty payload" is preserved by every public
operation — dispatch `Execute` (given every registered command backs up a
non-empty payload, as the repository's example command does), `Undo`,
`Redo` — and by every background job. -/
theorem c6_unsaved_never_evicted (s : system D) (cmd_str : String)
    (uid : Int) (w : Nat) (j : job) (hinv : EntriesInv s)
    (hbk : ∀ p ∈ s.m_Commands, ∀ d, p.2.BackupCurrenState d ≠ []) :
    (∀ target, StoreEvolve s.m_Store (evictLoop target s.m_LRU s.m_Store).2)
    ∧ EntriesInv (ExecuteDispatch s cmd_str uid w).2
    ∧ (∀ s1, Undo s = some s1 → EntriesInv s1)
    ∧ (∀ s1, Redo s = some s1 → EntriesInv s1)
    ∧ EntriesInv (runJob s j) :=
  ⟨fun target => evictLoop_evolve target s.m_LRU s.m_Store,
   EntriesInv_ExecuteDispatch s cmd_str uid w hinv hbk,
   fun s1 h => EntriesInv_Undo s s1 h hinv,
   fun s1 h => EntriesInv_Redo s s1 h hinv,
   EntriesInv_runJob s j hinv⟩

/-- Witness for C6 on the fresh persistent engine. -/
theorem c6_witness :
    (∀ target, StoreEvolve sysDisk.m_Store
      (evictLoop target sysDisk.m_LRU sysDisk.m_Store).2)
    ∧ EntriesInv (ExecuteDispatch sysDisk "Move" (-1) 0).2
    ∧ (∀ s1, Undo sysDisk = some s1 → EntriesInv s1)
    ∧ (∀ s1, Redo sysDisk = some s1 → EntriesInv s1)
    ∧ EntriesInv (runJob sysDisk (job.delete_entries [])) :=
  c6_unsaved_never_evicted sysDisk "Move" (-1) 0 (job.delete_entries [])
    (by intro i hi hf; simp [sysDisk, sysInit, RegisterCommand] at hi)
    (by
      intro p hp d
      simp only [sysDisk, sysInit, RegisterCommand, List.filter_nil,
        List.mem_singleton, List.mem_cons, List.not_mem_nil, or_false] at hp
      subst hp
      simp [cmdMove])

/-! ## C7: LRU window bound -/

set_option maxRecDepth 40000

/-- C7 counterexample.  "At the end of any public call, fewer than
`max_cached_steps` entries have non-empty payload" fails: after 51
`Move`s on a fresh persistent engine whose save jobs have not yet run,
every one of the 51 entries still holds its payload (eviction pops
unsaved entries from the window without clearing them), and 51 is not
below the default `max_cached_steps = 50`. -/
theorem c7_counterexample :
    (iterExec 51 sysDisk).m_MaxCachedSteps = 50
    ∧ nonEmptyPayloadCount (iterExec 51 sysDisk) = 51
    ∧ ¬ nonEmptyPayloadCount (iterExec 51 sysDisk)
          < (iterExec 51 sysDisk).m_MaxCachedSteps := by
  decide

/-- C7 (amended).  The window bounds do hold: after the pruning phase the
window holds at most `max_cached_steps - 2*look_ahead_steps - 1` entries,
and at the exit of `UpdateLRU` (non-empty history, and the asserted
configuration `max_cached_steps > 2*look_ahead_steps + 1`) the window
holds fewer than `max_cached_steps` entries.  The global count of entries
with non-empty payload is *not* bounded by `max_cached_steps`: entries
evicted before their save job completes keep their payload (see the
counterexample), so the bound applies to the window, not to all
entries. -/
theorem c7_window_bound (s : system D)
    (hcfg : s.m_LookAheadSteps * 2 + 1 < s.m_MaxCachedSteps)
    (hne : s.m_History ≠ []) :
    (evictLoop (s.m_MaxCachedSteps - (s.m_LookAheadSteps * 2 + 1)) s.m_LRU
        s.m_Store).1.length
      ≤ s.m_MaxCachedSteps - (s.m_LookAheadSteps * 2 + 1)
    ∧ (UpdateLRU s).m_LRU.length < s.m_MaxCachedSteps :=
  ⟨evictLoop_len _ _ _, UpdateLRU_len s hcfg hne⟩

/-- Witness for C7 after one `Move` on the persistent engine. -/
theorem c7_witness :
    (evictLoop ((execMove sysDisk).m_MaxCachedSteps
        - ((execMove sysDisk).m_LookAheadSteps * 2 + 1))
        (execMove sysDisk).m_LRU (execMove sysDisk).m_Store).1.length
      ≤ (execMove sysDisk).m_MaxCachedSteps
        - ((execMove sysDisk).m_LookAheadSteps * 2 + 1)
    ∧ (UpdateLRU (execMove sysDisk)).m_LRU.length
        < (execMove sysDisk).m_MaxCachedSteps :=
  c7_window_bound (execMove sysDisk) (by decide) (by decide)

lemma lookAheadStep_store (s : system D) (i : Nat) :
    (lookAheadStep s i).m_Store = s.m_Store := by
  unfold lookAheadStep
  dsimp only
  split <;> split <;> rfl

lemma lookAheadStep_undoIndex (s : system D) (i : Nat) :
    (lookAheadStep s i).m_UndoIndex = s.m_UndoIndex := by
  unfold lookAheadStep
  dsimp only
  split <;> split <;> rfl

lemma lookAheadStep_history (s : system D) (i : Nat) :
    (lookAheadStep s i).m_History = s.m_History := by
  unfold lookAheadStep
  dsimp only
  split <;> split <;> rfl

lemma lookAheadStep_max (s : system D) (i : Nat) :
    (lookAheadStep s i).m_MaxCachedSteps = s.m_MaxCachedSteps := by
  unfold lookAheadStep
  dsimp only
  split <;> split <;> rfl

lemma lookAheadLoop_lru_mono (fuel : Nat) :
    ∀ (s : system D) (i x : Nat), x ∈ s.m_LRU →
      x ∈ (lookAheadLoop s i fuel).m_LRU := by
  induction fuel with
  | zero =>
    intro s i x hx
    exact hx
  | succ fuel ih =>
    intro s i x hx
    unfold lookAheadLoop
    split
    · apply ih
      obtain ⟨l, hl, -⟩ := lookAheadStep_lru s i
      rw [hl]
      exact List.mem_append_left _ hx
    · exact hx

lemma lookAheadLoop_queue_mono (fuel : Nat) (s : system D) (i : Nat)
    (x : job) (hx : x ∈ s.m_IOQueue) : x ∈ (lookAheadLoop s i fuel).m_IOQueue := by
  obtain ⟨-, -, -, -, -, -, -, -, -, -, -, -, -, q, hq, -⟩ :=
    lookAheadLoop_frame fuel s i
  rw [hq]
  exact List.mem_append_left _ hx


lemma lookAheadStep_back_hit (s : system D) (i : Nat)
    (h : i ≤ s.m_UndoIndex ∧
      (s.m_Store (s.m_History.getD (s.m_UndoIndex - i) 0)).m_CacheUndoData = []) :
    job.warmup_cache (s.m_History.getD (s.m_UndoIndex - i) 0)
        ∈ (lookAheadStep s i).m_IOQueue
    ∧ s.m_History.getD (s.m_UndoIndex - i) 0 ∈ (lookAheadStep s i).m_LRU := by
  unfold lookAheadStep
  dsimp only
  rw [if_pos h]
  split <;> constructor <;> simp

lemma lookAheadStep_fwd_hit (s : system D) (i : Nat)
    (h : s.m_UndoIndex + i < s.m_History.length ∧
      (s.m_Store (s.m_History.getD (s.m_UndoIndex + i) 0)).m_CacheUndoData = []) :
    job.warmup_cache (s.m_History.getD (s.m_UndoIndex + i) 0)
        ∈ (lookAheadStep s i).m_IOQueue
    ∧ s.m_History.getD (s.m_UndoIndex + i) 0 ∈ (lookAheadStep s i).m_LRU := by
  unfold lookAheadStep
  dsimp only
  rw [if_pos h]
  split <;> constructor <;> simp


lemma lookAheadLoop_hits (fuel : Nat) :
    ∀ (s : system D) (i j : Nat),
      s.m_LRU.length + 2 * fuel < s.m_MaxCachedSteps + 2 →
      i ≤ j → j < i + fuel →
      ((j ≤ s.m_UndoIndex ∧
          (s.m_Store (s.m_History.getD (s.m_UndoIndex - j) 0)).m_CacheUndoData = [] →
        job.warmup_cache (s.m_History.getD (s.m_UndoIndex - j) 0)
            ∈ (lookAheadLoop s i fuel).m_IOQueue
        ∧ s.m_History.getD (s.m_UndoIndex - j) 0 ∈ (lookAheadLoop s i fuel).m_LRU)
      ∧ (s.m_UndoIndex + j < s.m_History.length ∧
          (s.m_Store (s.m_History.getD (s.m_UndoIndex + j) 0)).m_CacheUndoData = [] →
        job.warmup_cache (s.m_History.getD (s.m_UndoIndex + j) 0)
            ∈ (lookAheadLoop s i fuel).m_IOQueue
        ∧ s.m_History.getD (s.m_UndoIndex + j) 0 ∈ (lookAheadLoop s i fuel).m_LRU)) := by
  induction fuel with
  | zero =>
    intro s i j hsz hij hji
    omega
  | succ fuel ih =>
    intro s i j hsz hij hji
    unfold lookAheadLoop
    rw [if_pos (by omega)]
    rcases Nat.eq_or_lt_of_le hij with heq | hlt
    · subst heq
      constructor
      · intro hc
        have hstep := lookAheadStep_back_hit s i hc
        exact ⟨lookAheadLoop_queue_mono fuel _ _ _ hstep.1,
               lookAheadLoop_lru_mono fuel _ _ _ hstep.2⟩
      · intro hc
        have hstep := lookAheadStep_fwd_hit s i hc
        exact ⟨lookAheadLoop_queue_mono fuel _ _ _ hstep.1,
               lookAheadLoop_lru_mono fuel _ _ _ hstep.2⟩
    · obtain ⟨l, hl, hlen⟩ := lookAheadStep_lru s i
      have ihres := ih (lookAheadStep s i) (i + 1) j
        (by rw [hl, lookAheadStep_max, List.length_append]; omega)
        (by omega) (by omega)
      rw [lookAheadStep_undoIndex, lookAheadStep_history, lookAheadStep_store]
        at ihres
      exact ihres


/-! ## C9: look-ahead warm-up positions -/

/-- C9 counterexample.  The claim warms "the entry at position
`undo_index + i - 1`"; for `i = 1` that is position `undo_index` itself.
On a 2-entry history with the cursor at 1 and both payloads paged out,
position `undo_index + 1 - 1 = 1` is in range with an empty payload, yet
`UpdateLRU` schedules a warm-up only for position `undo_index - 1 = 0`
(the code indexes `m_History[m_UndoIndex + i]`, never
`m_UndoIndex + i - 1`). -/
theorem c9_counterexample :
    c9state.m_UndoIndex + 1 - 1 < c9state.m_History.length
    ∧ (c9state.m_Store (c9state.m_History.getD
        (c9state.m_UndoIndex + 1 - 1) 0)).m_CacheUndoData = []
    ∧ (UpdateLRU c9state).m_IOQueue = [job.warmup_cache 0]
    ∧ job.warmup_cache (c9state.m_History.getD
        (c9state.m_UndoIndex + 1 - 1) 0) ∉ (UpdateLRU c9state).m_IOQueue := by
  decide

/-- C9 (amended).  In every `UpdateLRU` call (non-empty history, the
asserted configuration), for each `i` in `1..=look_ahead_steps`: when
`undo_index ≥ i` and the entry at position `undo_index - i` has an empty
payload after the eviction phase, a warm-up job for it is scheduled and it
is added to the window; likewise for the entry at position `undo_index + i`
(not `undo_index + i - 1`) when that position is in range with an empty
payload.  Under the asserted configuration the window-size guard of the
loop can never trip, so every iteration runs. -/
theorem c9_lookahead_schedules (s : system D) (i : Nat)
    (hcfg : s.m_LookAheadSteps * 2 + 1 < s.m_MaxCachedSteps)
    (hne : ¬ s.m_History = [])
    (h1 : 1 ≤ i) (hla : i ≤ s.m_LookAheadSteps) :
    ((i ≤ s.m_UndoIndex ∧
        ((evictLoop (s.m_MaxCachedSteps - (s.m_LookAheadSteps * 2 + 1))
            s.m_LRU s.m_Store).2
          (s.m_History.getD (s.m_UndoIndex - i) 0)).m_CacheUndoData = [] →
      job.warmup_cache (s.m_History.getD (s.m_UndoIndex - i) 0)
          ∈ (UpdateLRU s).m_IOQueue
      ∧ s.m_History.getD (s.m_UndoIndex - i) 0 ∈ (UpdateLRU s).m_LRU)
    ∧ (s.m_UndoIndex + i < s.m_History.length ∧
        ((evictLoop (s.m_MaxCachedSteps - (s.m_LookAheadSteps * 2 + 1))
            s.m_LRU s.m_Store).2
          (s.m_History.getD (s.m_UndoIndex + i) 0)).m_CacheUndoData = [] →
      job.warmup_cache (s.m_History.getD (s.m_UndoIndex + i) 0)
          ∈ (UpdateLRU s).m_IOQueue
      ∧ s.m_History.getD (s.m_UndoIndex + i) 0 ∈ (UpdateLRU s).m_LRU)) := by
  unfold UpdateLRU
  rw [if_neg hne]
  dsimp only
  have hev := evictLoop_len (s.m_MaxCachedSteps - (s.m_LookAheadSteps * 2 + 1))
    s.m_LRU s.m_Store
  exact lookAheadLoop_hits s.m_LookAheadSteps
    { s with
      m_LRU := (evictLoop (s.m_MaxCachedSteps - (s.m_LookAheadSteps * 2 + 1))
        s.m_LRU s.m_Store).1,
      m_Store := (evictLoop (s.m_MaxCachedSteps - (s.m_LookAheadSteps * 2 + 1))
        s.m_LRU s.m_Store).2 } 1 i (by dsimp only; omega) h1 (by omega)

/-- Witness for C9: the backward look-ahead at distance 1 on `c9state`. -/
theorem c9_witness :
    job.warmup_cache (c9state.m_History.getD (c9state.m_UndoIndex - 1) 0)
        ∈ (UpdateLRU c9state).m_IOQueue
    ∧ c9state.m_History.getD (c9state.m_UndoIndex - 1) 0
        ∈ (UpdateLRU c9state).m_LRU :=
  (c9_lookahead_schedules c9state 1 (by decide) (by decide) le_rfl
    (by decide)).1 ⟨by decide, by decide⟩



/-! ## C10: command lookup in Undo/Redo -/

/-- C10.  `Undo` (when `undo_index > 0`) and `Redo` (when
`undo_index < history.len()`) resolve the command object by subscripting
the registry with the name extracted from the target entry's command
string and dereference it with no absence check: when the name is absent
the operation is undefined (`none` in the model); under the precondition
that the name is registered (and, for `Undo`, that a payload is obtainable
— here: resident), the lookup's failure branch is unreachable and the
operation completes. -/
theorem c10_lookup_totality (s : system D) :
    (∀ Cmd : command_base D, 0 < s.m_UndoIndex →
      lookupCmd s.m_Commands (getCommandName
        (s.m_Store (s.m_History.getD (s.m_UndoIndex - 1) 0)).m_CommandString)
        = some Cmd →
      (s.m_Store (s.m_History.getD (s.m_UndoIndex - 1) 0)).m_CacheUndoData ≠ [] →
      (Undo s).isSome = true)
    ∧ (0 < s.m_UndoIndex →
      lookupCmd s.m_Commands (getCommandName
        (s.m_Store (s.m_History.getD (s.m_UndoIndex - 1) 0)).m_CommandString)
        = none →
      Undo s = none)
    ∧ (∀ Cmd : command_base D, s.m_UndoIndex < s.m_History.length →
      lookupCmd s.m_Commands (getCommandName
        (s.m_Store (s.m_History.getD s.m_UndoIndex 0)).m_CommandString)
        = some Cmd →
      (Redo s).isSome = true)
    ∧ (s.m_UndoIndex < s.m_History.length →
      lookupCmd s.m_Commands (getCommandName
        (s.m_Store (s.m_History.getD s.m_UndoIndex 0)).m_CommandString)
        = none →
      Redo s = none) := by
  refine ⟨?_, ?_, ?_, ?_⟩
  · intro Cmd hpos hlk hne
    unfold Undo
    rw [if_neg (by omega)]
    dsimp only
    rw [hlk]
    dsimp only
    rw [if_neg hne, if_neg hne]
    split <;> simp
  · intro hpos hlk
    unfold Undo
    rw [if_neg (by omega)]
    dsimp only
    rw [hlk]
  · intro Cmd hlt hlk
    unfold Redo
    rw [if_neg (by omega)]
    dsimp only
    rw [hlk]
    dsimp only
    split
    · simp
    · split
      · simp
      · simp
  · intro hlt hlk
    unfold Redo
    rw [if_neg (by omega)]
    dsimp only
    rw [hlk]


/-- Witness for C10 on the in-memory engine with cursor at 1 of 2. -/
theorem c10_witness :
    (Undo sysTwoUndone).isSome = true ∧ (Redo sysTwoUndone).isSome = true :=
  ⟨(c10_lookup_totality sysTwoUndone).1 cmdMove (by decide) rfl (by decide),
   (c10_lookup_totality sysTwoUndone).2.2.1 cmdMove (by decide) rfl⟩



/-! ## C2: undo-then-redo round trip -/

lemma Undo_success_parts (s : system D) (Cmd : command_base D)
    (hpos : 0 < s.m_UndoIndex)
    (hcmd : lookupCmd s.m_Commands (getCommandName
      (s.m_Store (s.m_History.getD (s.m_UndoIndex - 1) 0)).m_CommandString)
      = some Cmd)
    (hres : (s.m_Store (s.m_History.getD
      (s.m_UndoIndex - 1) 0)).m_CacheUndoData ≠ []) :
    ∃ s1, Undo s = some s1
      ∧ s1.m_UndoIndex = s.m_UndoIndex - 1
      ∧ s1.m_History = s.m_History
      ∧ s1.m_Commands = s.m_Commands
      ∧ s1.m_Data = Cmd.Undo
          (s.m_Store (s.m_History.getD (s.m_UndoIndex - 1) 0)).m_CacheUndoData
          s.m_Data
      ∧ (∀ i, (s1.m_Store i).m_CommandString = (s.m_Store i).m_CommandString) := by
  unfold Undo
  rw [if_neg (by omega)]
  dsimp only
  rw [hcmd]
  dsimp only
  rw [if_neg hres, if_neg hres]
  split
  · refine ⟨_, rfl, ?_, ?_, ?_, ?_, ?_⟩
    · rw [UL_undoIndex]
    · rw [UL_history]
    · rw [UL_commands]
    · rw [UL_data]
    · intro i
      exact (storeEvolve_fields (UpdateLRU_store_evolve _) i).2.2.1
  · exact ⟨_, rfl, rfl, rfl, rfl, rfl, fun i => rfl⟩

lemma Redo_success_parts (s : system D) (Cmd : command_base D)
    (hlt : s.m_UndoIndex < s.m_History.length)
    (hcmd : lookupCmd s.m_Commands (getCommandName
      (s.m_Store (s.m_History.getD s.m_UndoIndex 0)).m_CommandString)
      = some Cmd)
    (hparse : Cmd.Parse
      (s.m_Store (s.m_History.getD s.m_UndoIndex 0)).m_CommandString = "")
    (hredo1 : (Cmd.Redo
      (s.m_Store (s.m_History.getD s.m_UndoIndex 0)).m_CommandString
      s.m_Data).1 = "") :
    ∃ s2, Redo s = some s2
      ∧ s2.m_UndoIndex = s.m_UndoIndex + 1
      ∧ s2.m_Data = (Cmd.Redo
          (s.m_Store (s.m_History.getD s.m_UndoIndex 0)).m_CommandString
          s.m_Data).2 := by
  unfold Redo
  rw [if_neg (by omega)]
  dsimp only
  rw [hcmd]
  dsimp only
  rw [if_neg (by rw [hparse]; simp), if_neg (by rw [hredo1]; simp)]
  split
  · refine ⟨_, rfl, ?_, ?_⟩
    · dsimp only
      rw [UL_undoIndex]
    · dsimp only
      rw [UL_data]
  · exact ⟨_, rfl, rfl, rfl⟩


/-- C2.  From any state with `undo_index = i > 0` whose target entry is
resident, with the entry's command registered and well-behaved at this
point — its `Undo` consumes the recorded payload to some pre-state `d'`,
its command string re-parses cleanly, and re-running `Redo` from `d'`
succeeds and reproduces the current caller-visible data (which, with no
intervening execute, is exactly the value right after the i-th execute) —
calling `Undo` then `Redo` leaves `undo_index` at `i` and the
caller-visible data at that same value. -/
theorem c2_undo_redo_roundtrip (s : system D) (Cmd : command_base D) (d' : D)
    (hpos : 0 < s.m_UndoIndex) (hlen : s.m_UndoIndex ≤ s.m_History.length)
    (hcmd : lookupCmd s.m_Commands (getCommandName
      (s.m_Store (s.m_History.getD (s.m_UndoIndex - 1) 0)).m_CommandString)
      = some Cmd)
    (hres : (s.m_Store (s.m_History.getD
      (s.m_UndoIndex - 1) 0)).m_CacheUndoData ≠ [])
    (hundo : Cmd.Undo
      (s.m_Store (s.m_History.getD (s.m_UndoIndex - 1) 0)).m_CacheUndoData
      s.m_Data = d')
    (hparse : Cmd.Parse
      (s.m_Store (s.m_History.getD (s.m_UndoIndex - 1) 0)).m_CommandString = "")
    (hredo : Cmd.Redo
      (s.m_Store (s.m_History.getD (s.m_UndoIndex - 1) 0)).m_CommandString d'
      = ("", s.m_Data)) :
    ∃ s1 s2, Undo s = some s1 ∧ Redo s1 = some s2
      ∧ s2.m_UndoIndex = s.m_UndoIndex ∧ s2.m_Data = s.m_Data := by
  obtain ⟨s1, hU, h1, h2, h3, h4, h5⟩ := Undo_success_parts s Cmd hpos hcmd hres
  have heid : s1.m_History.getD s1.m_UndoIndex 0
      = s.m_History.getD (s.m_UndoIndex - 1) 0 := by
    rw [h2, h1]
  have hcs : (s1.m_Store (s1.m_History.getD s1.m_UndoIndex 0)).m_CommandString
      = (s.m_Store (s.m_History.getD (s.m_UndoIndex - 1) 0)).m_CommandString := by
    rw [heid, h5]
  have hcmd1 : lookupCmd s1.m_Commands (getCommandName
      (s1.m_Store (s1.m_History.getD s1.m_UndoIndex 0)).m_CommandString)
      = some Cmd := by
    rw [h3, hcs]
    exact hcmd
  have hd : s1.m_Data = d' := by
    rw [h4, hundo]
  have hparse1 : Cmd.Parse
      (s1.m_Store (s1.m_History.getD s1.m_UndoIndex 0)).m_CommandString = "" := by
    rw [hcs]
    exact hparse
  have hredo1 : (Cmd.Redo
      (s1.m_Store (s1.m_History.getD s1.m_UndoIndex 0)).m_CommandString
      s1.m_Data).1 = "" := by
    rw [hcs, hd, hredo]
  obtain ⟨s2, hR, h6, h7⟩ := Redo_success_parts s1 Cmd
    (by rw [h1, h2]; omega) hcmd1 hparse1 hredo1
  refine ⟨s1, s2, hU, hR, ?_, ?_⟩
  · rw [h6, h1]
    omega
  · rw [h7, hcs, hd, hredo]


/-- Witness for C2 after one `Move` on the in-memory engine. -/
theorem c2_witness :
    ∃ s1 s2, Undo sysOne = some s1 ∧ Redo s1 = some s2
      ∧ s2.m_UndoIndex = sysOne.m_UndoIndex ∧ s2.m_Data = sysOne.m_Data :=
  c2_undo_redo_roundtrip sysOne cmdMove 0 (by decide) (by decide) rfl
    (by decide) rfl rfl rfl



/-! ## C5: prune-tail on divergent execute -/

lemma runJobs_append (s : system D) (a b : List job) :
    runJobs s (a ++ b) = runJobs (runJobs s a) b := by
  induction a generalizing s with
  | nil => rfl
  | cons j js ih =>
    simp only [List.cons_append, runJobs]
    exact ih _

lemma runJob_storeLen (s : system D) (j : job) :
    (runJob s j).m_StoreLen = s.m_StoreLen := by
  cases j <;> unfold runJob <;> dsimp only <;>
    repeat' first | split | rfl

lemma runJob_store_other (s : system D) (j : job) (n eid : Nat)
    (hj : jobInRange n j = true) (hle : n ≤ eid) :
    (runJob s j).m_Store eid = s.m_Store eid := by
  cases j with
  | save_to_disk e =>
    simp only [jobInRange, decide_eq_true_eq] at hj
    unfold runJob
    dsimp only
    split
    · rfl
    · split
      · dsimp only [setStore]
        rw [if_neg (by omega)]
      · rfl
  | delete_entries ts => rfl
  | warmup_cache e =>
    simp only [jobInRange, decide_eq_true_eq] at hj
    unfold runJob
    dsimp only
    split
    · split
      · split
        · dsimp only [setStore]
          rw [if_neg (by omega)]
        · rfl
      · rfl
    · rfl
  | load_entries e =>
    simp only [jobInRange, decide_eq_true_eq] at hj
    unfold runJob
    dsimp only
    split
    · split
      · dsimp only [setStore]
        rw [if_neg (by omega)]
      · rfl
    · rfl

lemma runJobs_store_other (js : List job) :
    ∀ (s : system D) (n eid : Nat),
      (∀ j ∈ js, jobInRange n j = true) → n ≤ eid →
      (runJobs s js).m_Store eid = s.m_Store eid := by
  induction js with
  | nil =>
    intro s n eid hj hle
    rfl
  | cons j js ih =>
    intro s n eid hj hle
    simp only [runJobs]
    rw [ih _ n eid (fun x hx => hj x (List.mem_cons_of_mem _ hx)) hle]
    exact runJob_store_other s j n eid (hj j (List.mem_cons_self _ _)) hle

lemma runJob_delete_store (s : system D) (ts : List Nat) :
    (runJob s (job.delete_entries ts)).m_Store = s.m_Store := rfl

lemma runJob_delete_disk (s : system D) (ts : List Nat) (t : Nat)
    (ht : t ∈ ts) :
    (runJob s (job.delete_entries ts)).m_Disk t = none := by
  unfold runJob
  dsimp only
  rw [if_pos (List.elem_eq_true_of_mem ht)]

lemma runJob_warmup_disk (s : system D) (e : Nat) :
    (runJob s (job.warmup_cache e)).m_Disk = s.m_Disk := by
  unfold runJob
  dsimp only
  repeat' first | split | rfl

lemma runJobs_warmups_disk (js : List job) :
    ∀ s : system D, (∀ j ∈ js, isWarmup j = true) →
      (runJobs s js).m_Disk = s.m_Disk := by
  induction js with
  | nil =>
    intro s hw
    rfl
  | cons j js ih =>
    intro s hw
    have hj := hw j (List.mem_cons_self _ _)
    cases j with
    | warmup_cache e =>
      simp only [runJobs]
      rw [ih _ (fun x hx => hw x (List.mem_cons_of_mem _ hx)),
        runJob_warmup_disk]
    | save_to_disk e => simp [isWarmup] at hj
    | delete_entries ts => simp [isWarmup] at hj
    | load_entries e => simp [isWarmup] at hj

lemma runJob_save_disk_ne (s : system D) (eid t : Nat)
    (ht : t ≠ (s.m_Store eid).m_TimeStamp) :
    (runJob s (job.save_to_disk eid)).m_Disk t = s.m_Disk t := by
  unfold runJob
  dsimp only
  split
  · rfl
  · split <;> dsimp only <;> rw [if_neg ht]


/-- C5.  A successful `Execute` issued while `undo_index < history.len()`
in persistent mode removes the positions `[undo_index, len)` from the
timeline before appending the new entry, and schedules a `DeleteEntries`
job carrying exactly the removed entries' timestamps; draining the queue
then leaves no file for any of those timestamps on disk (the only save job
behind the delete is the new entry's, whose fresh timestamp is larger than
every dropped one, and the look-ahead warm-ups never write the disk).
`hjobs` states that already-queued jobs reference only existing entries,
as the C++ jobs do through their `shared_ptr`s. -/
theorem c5_prune_tail_and_delete (s : system D) (Cmd : command_base D)
    (cmd_str : String) (uid : Int) (w : Nat)
    (hpath : ¬ s.m_UndoPath = "")
    (hmid : s.m_UndoIndex < s.m_History.length)
    (hjobs : ∀ j ∈ s.m_IOQueue, jobInRange s.m_StoreLen j = true)
    (hfresh : ∀ t ∈ droppedStamps s, t < w * 1000 + s.m_CommandCounter)
    (hparse : Cmd.Parse cmd_str = "")
    (hhelp : Cmd.hasHelpOption cmd_str = false)
    (hredo : (Cmd.Redo cmd_str s.m_Data).1 = "") :
    (ExecuteTyped s Cmd cmd_str uid w).1 = ""
    ∧ (ExecuteTyped s Cmd cmd_str uid w).2.m_History
        = s.m_History.take s.m_UndoIndex ++ [s.m_StoreLen]
    ∧ job.delete_entries (droppedStamps s)
        ∈ (ExecuteTyped s Cmd cmd_str uid w).2.m_IOQueue
    ∧ ∀ t ∈ droppedStamps s,
        (drainQueue (ExecuteTyped s Cmd cmd_str uid w).2).m_Disk t = none := by
  obtain ⟨out, heq, h1, h2, h3, h4, h5, h6, h7, h8, h9, h10, h11, h12,
    hev, hq1, hq2⟩ := ExecuteTyped_success_parts s Cmd cmd_str uid w hparse hhelp hredo
  obtain ⟨qw, hw, hqOut⟩ := hq2 hpath
  rw [if_pos hmid] at hqOut
  rw [heq]
  refine ⟨rfl, h2, ?_, ?_⟩
  · rw [hqOut]
    simp
  · intro t ht
    have htne : t ≠ w * 1000 + s.m_CommandCounter := by
      have := hfresh t ht
      omega
    unfold drainQueue
    rw [hqOut]
    have hassoc : (s.m_IOQueue ++ [job.delete_entries (droppedStamps s)]
          ++ [job.save_to_disk s.m_StoreLen]) ++ qw
        = s.m_IOQueue ++ ([job.delete_entries (droppedStamps s)]
          ++ ([job.save_to_disk s.m_StoreLen] ++ qw)) := by
      simp [List.append_assoc]
    rw [hassoc, runJobs_append]
    rw [show ([job.delete_entries (droppedStamps s)]
        ++ ([job.save_to_disk s.m_StoreLen] ++ qw))
      = job.delete_entries (droppedStamps s)
        :: job.save_to_disk s.m_StoreLen :: qw from by simp]
    simp only [runJobs]
    -- after the delete job the dropped timestamps are gone from disk
    rw [runJobs_warmups_disk qw _ hw]
    rw [runJob_save_disk_ne]
    · rw [runJob_delete_disk _ _ _ ht]
    · rw [runJob_delete_store,
        runJobs_store_other s.m_IOQueue _ s.m_StoreLen s.m_StoreLen hjobs le_rfl]
      show t ≠ (out.m_Store s.m_StoreLen).m_TimeStamp
      rw [(storeEvolve_fields hev s.m_StoreLen).1]
      dsimp only [setStore]
      rw [if_pos rfl]
      exact htne


/-- Witness for C5: two `Move`s and an `Undo` on the persistent engine,
then a third `Move` from the mid-history cursor. -/
theorem c5_witness :
    (ExecuteTyped sysDiskTwoUndone cmdMove "Move" (-1) 0).1 = ""
    ∧ (ExecuteTyped sysDiskTwoUndone cmdMove "Move" (-1) 0).2.m_History
        = sysDiskTwoUndone.m_History.take sysDiskTwoUndone.m_UndoIndex
          ++ [sysDiskTwoUndone.m_StoreLen]
    ∧ job.delete_entries (droppedStamps sysDiskTwoUndone)
        ∈ (ExecuteTyped sysDiskTwoUndone cmdMove "Move" (-1) 0).2.m_IOQueue
    ∧ ∀ t ∈ droppedStamps sysDiskTwoUndone,
        (drainQueue (ExecuteTyped sysDiskTwoUndone cmdMove "Move" (-1) 0).2).m_Disk t
          = none :=
  c5_prune_tail_and_delete sysDiskTwoUndone cmdMove "Move" (-1) 0 (by decide)
    (by decide) (by decide) (by decide) rfl rfl rfl

end xundo
